import Mathlib

/-
Verification development for the RDB snapshot decoder (rdb_parser.py).

Embedding conventions:
- Python byte strings are modelled as `List Nat` (one entry per byte).
- Python text strings are modelled as `List Nat` of code points.  The
  UTF-8 replacement decoding used by the source (decode with
  errors=replace) is modelled as the identity on byte values: every
  datum the claims touch is ASCII, where the decoding really is the
  identity.
- Machine integers are `Nat`/`Int`; two-complement reinterpretation is
  made explicit by `toSigned`.
- The file cursor is modelled by threading the list of not-yet-consumed
  bytes; a read that fails still reports how far the cursor moved, since
  a caught Python exception does not rewind the file.
- IEEE-754 doubles are kept symbolic (`PyFloat`): the source never
  computes with them, it only stores them, and no claim inspects one
  beyond the integer/zero cases.
-/

namespace RDB

/-- Python text, as a list of code points (see the header comment). -/
abbrev Str := List Nat

/-- Code points of a Lean string literal, for the placeholder texts the
source builds with f-strings. -/
def pyStr (s : String) : Str := s.toList.map Char.toNat

/-- Little-endian value of a byte list (struct.unpack with a `<` format). -/
def leNat : List Nat → Nat
  | [] => 0
  | b :: t => b + 256 * leNat t

/-- Reinterpret an unsigned `bits`-wide value as a signed integer. -/
def toSigned (bits : Nat) (n : Nat) : Int :=
  if n < 2 ^ (bits - 1) then (n : Int) else (n : Int) - 2 ^ bits

/-- Decimal digits (as ASCII codes) of a natural number; the fuel
argument makes the recursion structural, `n + 1` units always suffice. -/
def natDecAux : Nat → Nat → List Nat
  | 0, _ => []
  | _ + 1, n => if n < 10 then [48 + n] else natDecAux n (n / 10) ++ [48 + n % 10]

/-- ASCII decimal rendering of a natural number. -/
def natDec (n : Nat) : List Nat := natDecAux (n + 1) n

/-- Python `str` applied to an int. -/
def strOfInt (i : Int) : Str :=
  if i < 0 then 45 :: natDec i.natAbs else natDec i.toNat

/-- The `decode(utf-8, errors=replace)` step, modelled as the identity on
byte values (see the header comment). -/
def decodeReplace (bs : List Nat) : Str := bs

/-- Error kinds raised by the decoder.  `eof` is EOFError from the byte
reader, `valueError` covers ValueError (message text not modelled),
`unicodeError` is the ASCII decode failure on the version field. -/
inductive Err
  | eof
  | valueError
  | unicodeError
deriving DecidableEq

/-- The reading monad: a computation consumes a list of remaining bytes
and returns how much of it is left, whether it succeeded or raised.  The
state is reported even on failure because a caught Python exception does
not rewind the file cursor. -/
def Rd (α : Type) : Type := List Nat → Except Err α × List Nat

def Rd.pure {α : Type} (a : α) : Rd α := fun s => (.ok a, s)

def Rd.bind {α β : Type} (x : Rd α) (f : α → Rd β) : Rd β := fun s =>
  match x s with
  | (.ok a, s1) => f a s1
  | (.error e, s1) => (.error e, s1)

instance : Monad Rd where
  pure := Rd.pure
  bind := Rd.bind

/-- A Python try/except: on failure the handler continues from the
cursor position the failing read reached. -/
def Rd.catch {α : Type} (x : Rd α) (h : Err → Rd α) : Rd α := fun s =>
  match x s with
  | (.ok a, s1) => (.ok a, s1)
  | (.error e, s1) => h e s1

def Rd.throw {α : Type} (e : Err) : Rd α := fun s => (.error e, s)

/-- read_byte: one byte, EOFError when the file is exhausted. -/
def readByte : Rd Nat := fun s =>
  match s with
  | [] => (.error .eof, [])
  | b :: t => (.ok b, t)

/-- Helper for read_bytes: split off exactly `n` bytes. -/
def readBytesAux : Nat → List Nat → Option (List Nat × List Nat)
  | 0, s => some ([], s)
  | _ + 1, [] => none
  | n + 1, b :: t =>
    match readBytesAux n t with
    | some (bs, r) => some (b :: bs, r)
    | none => none

/-- read_bytes: exactly `n` bytes or EOFError.  A short read consumes
the whole tail before raising, as `file.read(n)` does. -/
def readBytes (n : Nat) : Rd (List Nat) := fun s =>
  match readBytesAux n s with
  | some (bs, r) => (.ok bs, r)
  | none => (.error .eof, [])

def readSignedByte : Rd Int := do
  let bs ← readBytes 1
  pure (toSigned 8 (leNat bs))

def readSignedShort : Rd Int := do
  let bs ← readBytes 2
  pure (toSigned 16 (leNat bs))

def readSignedInt : Rd Int := do
  let bs ← readBytes 4
  pure (toSigned 32 (leNat bs))

def readUnsignedInt : Rd Nat := do
  let bs ← readBytes 4
  pure (leNat bs)

def readUnsignedLong : Rd Nat := do
  let bs ← readBytes 8
  pure (leNat bs)

/-- Result of read_length_with_encoding: either a plain length or a
special-encoding tag. -/
inductive LenEnc
  | len (n : Nat)
  | enc (tag : Nat)
deriving DecidableEq

/-- read_length_with_encoding, branch for branch.  Note that the 32-bit
and 64-bit payloads are consumed through read_unsigned_int and
read_unsigned_long, hence little-endian. -/
def readLengthWithEncoding : Rd LenEnc := do
  let b ← readByte
  let encType := (b &&& 0xC0) >>> 6
  if encType = 3 then
    Rd.pure (.enc (b &&& 0x3F))
  else if encType = 0 then
    Rd.pure (.len (b &&& 0x3F))
  else if encType = 1 then do
    let nb ← readByte
    Rd.pure (.len (((b &&& 0x3F) <<< 8) ||| nb))
  else
    let rem := b &&& 0x3F
    if rem = 0 then do
      let n ← readUnsignedInt
      Rd.pure (.len n)
    else if rem = 1 then do
      let n ← readUnsignedLong
      Rd.pure (.len n)
    else do
      let n ← readUnsignedInt
      Rd.pure (.len n)

/-- read_length: a length prefix that must not be a special encoding. -/
def readLength : Rd Nat := do
  match ← readLengthWithEncoding with
  | .len n => Rd.pure n
  | .enc _ => Rd.throw .valueError

/-- The placeholder lzf_decompress returns when the python-lzf module is
not installed (the only behaviour the source guarantees; the bytes are
the literal fallback text). -/
def lzfPlaceholder : List Nat :=
  pyStr "<LZF compressed data - install python-lzf to decompress>"

/-- lzf_decompress in an environment without the python-lzf module: the
ImportError branch returns the placeholder bytes. -/
def lzfDecompress (_data : List Nat) (_expectedLength : Nat) : List Nat :=
  lzfPlaceholder

def parseErrorEncStr (enc : Nat) : Str :=
  pyStr "<parse_error_enc:" ++ natDec enc ++ [62]

def invalidLengthStr (n : Nat) : Str :=
  pyStr "<invalid_length:" ++ natDec n ++ [62]

def unknownTypeStr (vt : Nat) : Str :=
  pyStr "<unknown type " ++ natDec vt ++ [62]

def zipmapStr (n : Nat) : Str :=
  pyStr "<zipmap:" ++ natDec n ++ pyStr " bytes>"

def streamStr (n : Nat) : Str :=
  pyStr "<stream with " ++ natDec n ++ pyStr " elements>"

/-- The 100 MB cap on regular string lengths in read_string. -/
def strLenCap : Nat := 1024 * 1024 * 100

/-- read_string: text decoding of the string encoding. -/
def readString : Rd Str := do
  match ← readLengthWithEncoding with
  | .enc enc =>
    if enc = 0 then do
      let v ← readSignedByte
      Rd.pure (strOfInt v)
    else if enc = 1 then do
      let v ← readSignedShort
      Rd.pure (strOfInt v)
    else if enc = 2 then do
      let v ← readSignedInt
      Rd.pure (strOfInt v)
    else if enc = 3 then do
      let clen ← readLength
      let ulen ← readLength
      let cdata ← readBytes clen
      Rd.pure (decodeReplace (lzfDecompress cdata ulen))
    else
      Rd.pure (parseErrorEncStr enc)
  | .len length =>
    if length = 0 then
      Rd.pure []
    else if length > strLenCap then
      Rd.pure (invalidLengthStr length)
    else do
      let data ← readBytes length
      Rd.pure (decodeReplace data)

/-- read_string_raw: the raw-bytes variant used before container
parsing.  For the inline-integer encodings the source unpacks and
repacks the very bytes it read, so the result is those bytes. -/
def readStringRaw : Rd (List Nat) := do
  match ← readLengthWithEncoding with
  | .enc enc =>
    if enc = 0 then
      readBytes 1
    else if enc = 1 then
      readBytes 2
    else if enc = 2 then
      readBytes 4
    else if enc = 3 then do
      let clen ← readLength
      let ulen ← readLength
      let cdata ← readBytes clen
      Rd.pure (lzfDecompress cdata ulen)
    else
      Rd.pure []
  | .len length =>
    if length = 0 then
      Rd.pure []
    else
      readBytes length

/-- Symbolic model of a Python float: the source stores doubles but
never computes with them. -/
inductive PyFloat
  | fint (n : Int)
  | negInf
  | posInf
  | fnan
  | ofDecimal (s : Str)
  | ofBits (bs : List Nat)
deriving DecidableEq

def isDigitByte (c : Nat) : Bool := 48 ≤ c && c ≤ 57

/-- Abstraction of Python float() literal recognition, restricted to the
signed decimal forms the snapshot format emits.  No claim depends on its
exact extension; it only decides whether read_double raises. -/
def floatLit (bs : List Nat) : Bool :=
  let core := match bs with
    | c :: t => if c = 43 ∨ c = 45 then t else bs
    | [] => []
  !core.isEmpty && core.all (fun c => isDigitByte c || c = 46)
    && (core.filter (fun c => c = 46)).length ≤ 1 && core.any isDigitByte

/-- read_double: the compact double of the older sorted-set encoding. -/
def readDouble : Rd PyFloat := do
  let l ← readByte
  if l = 255 then
    Rd.pure .negInf
  else if l = 254 then
    Rd.pure .posInf
  else if l = 253 then
    Rd.pure .fnan
  else do
    let data ← readBytes l
    if data.all (· < 128) && floatLit data then
      Rd.pure (.ofDecimal data)
    else
      Rd.throw .valueError

/-- An element decoded from a ziplist or listpack: the Python values are
either str or int. -/
inductive ZLVal
  | s (b : Str)
  | i (n : Int)
deriving DecidableEq

/-- Python str() applied to a ziplist/listpack element. -/
def strOfVal : ZLVal → Str
  | .s b => b
  | .i n => strOfInt n

/-- Branch dispatch of parse_ziplist_entry once the encoding byte is
known; `off` is the offset just past the encoding byte. -/
def zipEntryEnc (data : List Nat) (encoding off : Nat) : Option ZLVal × Nat :=
  if encoding &&& 0xC0 = 0x00 then
    if off + (encoding &&& 0x3F) > data.length then (none, 0)
    else (some (.s (decodeReplace ((data.drop off).take (encoding &&& 0x3F)))),
      off + (encoding &&& 0x3F))
  else if encoding &&& 0xC0 = 0x40 then
    if off ≥ data.length then (none, 0)
    else if (off + 1) + (((encoding &&& 0x3F) <<< 8) ||| data.getD off 0) > data.length then
      (none, 0)
    else
      (some (.s (decodeReplace ((data.drop (off + 1)).take
          (((encoding &&& 0x3F) <<< 8) ||| data.getD off 0)))),
        (off + 1) + (((encoding &&& 0x3F) <<< 8) ||| data.getD off 0))
  else if encoding &&& 0xC0 = 0x80 then
    if off + 4 > data.length then (none, 0)
    else if (off + 4) + leNat ((data.drop off).take 4) > data.length then (none, 0)
    else
      (some (.s (decodeReplace ((data.drop (off + 4)).take (leNat ((data.drop off).take 4))))),
        (off + 4) + leNat ((data.drop off).take 4))
  else if encoding = 0xC0 then
    if off + 2 > data.length then (none, 0)
    else (some (.i (toSigned 16 (leNat ((data.drop off).take 2)))), off + 2)
  else if encoding = 0xD0 then
    if off + 4 > data.length then (none, 0)
    else (some (.i (toSigned 32 (leNat ((data.drop off).take 4)))), off + 4)
  else if encoding = 0xE0 then
    if off + 8 > data.length then (none, 0)
    else (some (.i (toSigned 64 (leNat ((data.drop off).take 8)))), off + 8)
  else if encoding = 0xF0 then
    if off + 3 > data.length then (none, 0)
    else (some (.i (toSigned 24 (leNat ((data.drop off).take 3)))), off + 3)
  else if encoding = 0xFE then
    if off + 1 > data.length then (none, 0)
    else (some (.i (toSigned 8 (leNat ((data.drop off).take 1)))), off + 1)
  else if encoding &&& 0xF0 = 0xF0 then
    (some (.i ((encoding &&& 0x0F : Nat) - (1 : Int))), off)
  else
    (none, 1)

/-- parse_ziplist_entry after the prevlen field: read the encoding byte
at `off`. -/
def zipEntryAt (data : List Nat) (off : Nat) : Option ZLVal × Nat :=
  if off ≥ data.length then (none, 0)
  else zipEntryEnc data (data.getD off 0) (off + 1)

/-- parse_ziplist_entry: one ziplist entry, returning the decoded value
(none when unknown or truncated) and the number of bytes consumed. -/
def parseZiplistEntry (data : List Nat) : Option ZLVal × Nat :=
  if data.length < 2 then (none, 0)
  else if data.getD 0 0 = 0xFE ∧ data.length < 5 then (none, 0)
  else zipEntryAt data (if data.getD 0 0 = 0xFE then 5 else 1)

/-- The entry loop of parse_ziplist: `fuel` is the remaining iteration
count of the Python `for i in range(count)`. -/
def ziplistLoop (data : List Nat) : Nat → Nat → List ZLVal
  | 0, _ => []
  | n + 1, pos =>
    if pos ≥ data.length - 1 then []
    else if data.getD pos 0 = 0xFF then []
    else
      match parseZiplistEntry (data.drop pos) with
      | (v, bytesRead) =>
        if bytesRead = 0 then
          match v with
          | some x => [x]
          | none => []
        else
          match v with
          | some x => x :: ziplistLoop data n (pos + bytesRead)
          | none => ziplistLoop data n (pos + bytesRead)

/-- parse_ziplist: header check, then the entry loop from offset 10.
zlbytes and zltail are read but unused by the source. -/
def parseZiplist (data : List Nat) : List ZLVal :=
  if data.length < 10 then []
  else
    ziplistLoop data
      (if leNat ((data.drop 8).take 2) < 65535 then leNat ((data.drop 8).take 2) else 999999)
      10

/-- The special-encoding (1111xxxx) sub-dispatch of
parse_listpack_entry, on the low nibble of the first byte. -/
def lpEntryF (data : List Nat) : Option ZLVal × Nat :=
  if data.getD 0 0 &&& 0x0F = 1 then
    if data.length < 4 then (none, 0)
    else (some (.i (toSigned 16 (leNat ((data.drop 1).take 2)))), 4)
  else if data.getD 0 0 &&& 0x0F = 2 then
    if data.length < 5 then (none, 0)
    else
      (some (.i (if leNat ((data.drop 1).take 3) &&& 0x800000 ≠ 0 then
          (leNat ((data.drop 1).take 3) : Int) - 0x1000000
        else (leNat ((data.drop 1).take 3) : Nat))), 5)
  else if data.getD 0 0 &&& 0x0F = 3 then
    if data.length < 6 then (none, 0)
    else (some (.i (toSigned 32 (leNat ((data.drop 1).take 4)))), 6)
  else if data.getD 0 0 &&& 0x0F = 4 then
    if data.length < 10 then (none, 0)
    else (some (.i (toSigned 64 (leNat ((data.drop 1).take 8)))), 10)
  else if data.getD 0 0 &&& 0x0F = 0 then
    if data.length < 5 then (none, 0)
    else if data.length < 5 + leNat ((data.drop 1).take 4) + 1 then (none, 0)
    else
      (some (.s (decodeReplace ((data.drop 5).take (leNat ((data.drop 1).take 4))))),
        5 + leNat ((data.drop 1).take 4) + 1)
  else (none, 1)

/-- parse_listpack_entry: one listpack entry, returning the decoded
value and the number of bytes consumed.  The source always consumes a
single backlen byte. -/
def parseListpackEntry (data : List Nat) : Option ZLVal × Nat :=
  if data.length < 2 then (none, 0)
  else if data.getD 0 0 ≤ 0x7F then
    if data.getD 0 0 &&& 0x7F = 0 then (some (.s []), 2)
    else if data.length < 1 + (data.getD 0 0 &&& 0x7F) + 1 then (none, 0)
    else
      (some (.s (decodeReplace ((data.drop 1).take (data.getD 0 0 &&& 0x7F)))),
        1 + (data.getD 0 0 &&& 0x7F) + 1)
  else if data.getD 0 0 &&& 0xE0 = 0xC0 then
    (some (.i (data.getD 0 0 &&& 0x1F : Nat)), 2)
  else if data.getD 0 0 &&& 0xF0 = 0xE0 then
    if data.length < 3 then (none, 0)
    else
      (some (.i (if (((data.getD 0 0 &&& 0x0F) <<< 8) ||| data.getD 1 0) &&& 0x800 ≠ 0 then
          ((((data.getD 0 0 &&& 0x0F) <<< 8) ||| data.getD 1 0 : Nat) : Int) - 0x1000
        else (((data.getD 0 0 &&& 0x0F) <<< 8) ||| data.getD 1 0 : Nat))), 3)
  else if data.getD 0 0 &&& 0xC0 = 0x80 then
    if data.length < 2 + (((data.getD 0 0 &&& 0x3F) <<< 8) ||| data.getD 1 0) + 1 then
      (none, 0)
    else
      (some (.s (decodeReplace ((data.drop 2).take
          (((data.getD 0 0 &&& 0x3F) <<< 8) ||| data.getD 1 0)))),
        2 + (((data.getD 0 0 &&& 0x3F) <<< 8) ||| data.getD 1 0) + 1)
  else if data.getD 0 0 &&& 0xF0 = 0xF0 then
    lpEntryF data
  else (none, 1)

/-- The entry loop of parse_listpack. -/
def listpackLoop (data : List Nat) : Nat → Nat → List ZLVal
  | 0, _ => []
  | n + 1, pos =>
    if pos ≥ data.length - 1 then []
    else
      match parseListpackEntry (data.drop pos) with
      | (v, bytesRead) =>
        if bytesRead = 0 then
          match v with
          | some x => [x]
          | none => []
        else
          match v with
          | some x => x :: listpackLoop data n (pos + bytesRead)
          | none => listpackLoop data n (pos + bytesRead)

/-- parse_listpack: header check, then the entry loop from offset 6 over
num_elements entries. -/
def parseListpack (data : List Nat) : List ZLVal :=
  if data.length < 7 then []
  else listpackLoop data (leNat ((data.drop 4).take 2)) 6

/-- The element stride computed by read_set_intset: the source indexes
the table [2, 4, 8] with the encoding field (`[2,4,8][encoding]`), while
the unpack branches below compare the encoding with the widths 2, 4, 8
themselves. -/
def intsetSize (encoding : Nat) : Nat :=
  if encoding < 3 then [2, 4, 8].getD encoding 0 else 4

/-- The element loop of read_set_intset.  `none` models the struct.error
raised when the 8-byte unpack is attempted with fewer than 8 bytes left,
which the bare except of the source turns into an empty result. -/
def intsetLoop (bs : List Nat) (encoding : Nat) : Nat → Nat → Option (List Str)
  | 0, _ => some []
  | n + 1, pos =>
    if pos + intsetSize encoding > bs.length then some []
    else if encoding = 2 then
      (intsetLoop bs encoding n (pos + intsetSize encoding)).map
        (strOfInt (toSigned 16 (leNat ((bs.drop pos).take 2))) :: ·)
    else if encoding = 4 then
      (intsetLoop bs encoding n (pos + intsetSize encoding)).map
        (strOfInt (toSigned 32 (leNat ((bs.drop pos).take 4))) :: ·)
    else if encoding = 8 then
      if bs.length < pos + 8 then none
      else
        (intsetLoop bs encoding n (pos + intsetSize encoding)).map
          (strOfInt (toSigned 64 (leNat ((bs.drop pos).take 8))) :: ·)
    else some []

/-- read_set_intset applied to the raw payload bytes: header, capped
count, element loop; an escaped struct.error yields the empty list. -/
def readSetIntsetCore (bs : List Nat) : List Str :=
  if bs.length < 8 then []
  else
    match intsetLoop bs (leNat (bs.take 4)) (min (leNat ((bs.drop 4).take 4)) 1000) 8 with
    | some r => r
    | none => []

/-- The member/score conversion shared by read_zset_ziplist and
read_zset_listpack: a string element yields the constant score 0, an
integer element is passed through float(). -/
def scoreOf : ZLVal → PyFloat
  | .i n => .fint n
  | .s _ => .fint 0

/-- Pairing loop of the zset conversions: elements two at a time, a
trailing unpaired element is dropped. -/
def zsetOfEntries : List ZLVal → List (Str × PyFloat)
  | a :: b :: t => (strOfVal a, scoreOf b) :: zsetOfEntries t
  | _ => []

/-- Python dict assignment d[k] = v on an insertion-ordered association
list: an existing key keeps its position, otherwise append. -/
def updAssoc {α : Type} : List (Str × α) → Str → α → List (Str × α)
  | [], k, v => [(k, v)]
  | (a, b) :: t, k, v => if a = k then (k, v) :: t else (a, b) :: updAssoc t k v

/-- Python dict lookup on the same representation. -/
def lookupAssoc {α : Type} : List (Str × α) → Str → Option α
  | [], _ => none
  | (a, b) :: t, k => if a = k then some b else lookupAssoc t k

/-- Pairing loop of the hash conversions, with dict-update semantics. -/
def hashOfEntriesAux : List ZLVal → List (Str × Str) → List (Str × Str)
  | a :: b :: t, acc => hashOfEntriesAux t (updAssoc acc (strOfVal a) (strOfVal b))
  | _, acc => acc

def hashOfEntries (es : List ZLVal) : List (Str × Str) := hashOfEntriesAux es []

/-- Model of `list(set(xs))` for the plain set type.  Python set
iteration order is unspecified; first-occurrence order is one admissible
refinement and no claim depends on the order. -/
def dedupAux : List Str → List Str → List Str
  | [], _ => []
  | x :: t, seen => if seen.contains x then dedupAux t seen else x :: dedupAux t (x :: seen)

def dedupFirst (xs : List Str) : List Str := dedupAux xs []

/-- A decoded Python value as produced by read_value. -/
inductive PyVal
  | str (s : Str)
  | arr (xs : List ZLVal)
  | zset (ps : List (Str × PyFloat))
  | hash (ps : List (Str × Str))

def readNStrings : Nat → Rd (List Str)
  | 0 => Rd.pure []
  | n + 1 => do
    let s ← readString
    let t ← readNStrings n
    Rd.pure (s :: t)

/-- Member/score pairs of the plain zset types; `binary` selects the
8-byte IEEE-754 score of TYPE_ZSET_2 over the compact double. -/
def readZsetPairs (binary : Bool) : Nat → Rd (List (Str × PyFloat))
  | 0 => Rd.pure []
  | n + 1 => do
    let m ← readString
    let sc ← if binary then do
        let bs ← readBytes 8
        Rd.pure (PyFloat.ofBits bs)
      else readDouble
    let t ← readZsetPairs binary n
    Rd.pure ((m, sc) :: t)

def readHashPairs : Nat → List (Str × Str) → Rd (List (Str × Str))
  | 0, acc => Rd.pure acc
  | n + 1, acc => do
    let k ← readString
    let v ← readString
    readHashPairs n (updAssoc acc k v)

/-- read_list_ziplist: raw read, then ziplist parsing (whose failures
the source catches into an empty list; the embedding is total). -/
def readListZiplist : Rd (List ZLVal) := do
  let b ← readStringRaw
  Rd.pure (parseZiplist b)

/-- read_set_intset. -/
def readSetIntset : Rd (List Str) := do
  let b ← readStringRaw
  Rd.pure (readSetIntsetCore b)

/-- read_zset_ziplist. -/
def readZsetZiplist : Rd (List (Str × PyFloat)) := do
  let b ← readStringRaw
  Rd.pure (zsetOfEntries (parseZiplist b))

/-- read_hash_ziplist. -/
def readHashZiplist : Rd (List (Str × Str)) := do
  let b ← readStringRaw
  Rd.pure (hashOfEntries (parseZiplist b))

/-- read_listpack: raw read plus parse.  The isinstance(entries, str)
branches of the callers are unreachable because parse_listpack always
returns a list; they are not modelled. -/
def readListpack : Rd (List ZLVal) := do
  let b ← readStringRaw
  Rd.pure (parseListpack b)

/-- read_zset_listpack. -/
def readZsetListpack : Rd (List (Str × PyFloat)) := do
  let es ← readListpack
  Rd.pure (zsetOfEntries es)

/-- read_hash_listpack. -/
def readHashListpack : Rd (List (Str × Str)) := do
  let es ← readListpack
  Rd.pure (hashOfEntries es)

/-- read_set_listpack. -/
def readSetListpack : Rd (List Str) := do
  let es ← readListpack
  Rd.pure (es.map strOfVal)

/-- Segment loop of read_quicklist.  The per-segment try covers only
parse_ziplist, which is total here; a failing raw read propagates, as in
the source where read_string_raw sits outside the try. -/
def quicklistLoop : Nat → Rd (List ZLVal)
  | 0 => Rd.pure []
  | n + 1 => do
    let zb ← readStringRaw
    let rest ← quicklistLoop n
    Rd.pure (parseZiplist zb ++ rest)

/-- read_quicklist. -/
def readQuicklist : Rd (List ZLVal) := do
  let size ← readLength
  quicklistLoop size

/-- read_stream: the stub that records only the element count. -/
def readStream : Rd Str := do
  let n ← readLength
  Rd.pure (streamStr n)

/-- read_value: dispatch on the value type tag.  Types 6 and 7 (module)
have no branch in the source and fall into the unknown-type fallback. -/
def readValue (vt : Nat) : Rd PyVal :=
  if vt = 0 then do
    let s ← readString
    Rd.pure (.str s)
  else if vt = 1 then do
    let size ← readLength
    let xs ← readNStrings size
    Rd.pure (.arr (xs.map .s))
  else if vt = 2 then do
    let size ← readLength
    let xs ← readNStrings size
    Rd.pure (.arr ((dedupFirst xs).map .s))
  else if vt = 3 ∨ vt = 5 then do
    let size ← readLength
    let ps ← readZsetPairs (vt = 5) size
    Rd.pure (.zset ps)
  else if vt = 4 then do
    let size ← readLength
    let ps ← readHashPairs size []
    Rd.pure (.hash ps)
  else if vt = 9 then do
    let zm ← readString
    Rd.pure (.hash [(zipmapStr zm.length, [])])
  else if vt = 10 then do
    let xs ← readListZiplist
    Rd.pure (.arr xs)
  else if vt = 11 then do
    let xs ← readSetIntset
    Rd.pure (.arr (xs.map .s))
  else if vt = 12 then do
    let ps ← readZsetZiplist
    Rd.pure (.zset ps)
  else if vt = 13 then do
    let ps ← readHashZiplist
    Rd.pure (.hash ps)
  else if vt = 14 ∨ vt = 18 then do
    let xs ← readQuicklist
    Rd.pure (.arr xs)
  else if vt = 16 then do
    let ps ← readHashListpack
    Rd.pure (.hash ps)
  else if vt = 17 then do
    let ps ← readZsetListpack
    Rd.pure (.zset ps)
  else if vt = 20 then do
    let xs ← readSetListpack
    Rd.pure (.arr (xs.map .s))
  else if vt = 15 ∨ vt = 19 ∨ vt = 21 then do
    let s ← readStream
    Rd.pure (.str s)
  else
    Rd.catch (do
      let s ← readString
      Rd.pure (PyVal.str s))
      (fun _ => Rd.pure (.str (unknownTypeStr vt)))

/-- get_type_name. -/
def typeNameOf (vt : Nat) : Str :=
  if vt = 0 then pyStr "string"
  else if vt = 1 then pyStr "list"
  else if vt = 2 then pyStr "set"
  else if vt = 3 then pyStr "zset"
  else if vt = 5 then pyStr "zset"
  else if vt = 4 then pyStr "hash"
  else if vt = 9 then pyStr "hash"
  else if vt = 10 then pyStr "list"
  else if vt = 11 then pyStr "set"
  else if vt = 12 then pyStr "zset"
  else if vt = 13 then pyStr "hash"
  else if vt = 14 then pyStr "list"
  else if vt = 18 then pyStr "list"
  else if vt = 16 then pyStr "hash"
  else if vt = 17 then pyStr "zset"
  else if vt = 20 then pyStr "set"
  else if vt = 15 ∨ vt = 19 ∨ vt = 21 then pyStr "stream"
  else pyStr "unknown_type_" ++ natDec vt

/-- The key sanitation test of the record loop: empty keys and the
decoder-generated placeholders are skipped. -/
def invalidKey (k : Str) : Bool :=
  k.isEmpty || (pyStr "<unknown").isPrefixOf k || (pyStr "<binary").isPrefixOf k
    || (pyStr "<parse_error").isPrefixOf k || (pyStr "<invalid").isPrefixOf k

/-- A full-mode entry.  The optional fields model the conditionally
present dict keys; expiry_date is a pure function of expiry_ms and is
not modelled separately beyond its range check (see entryRaises: its
datetime.fromtimestamp raises on out-of-range expiries). -/
structure Entry where
  value : PyVal
  typeName : Str
  expiry_ms : Option Nat
  idle : Option Nat
  freq : Option Nat

/-- What the output dict maps a key to: a full entry, a full-mode error
record, or a bare simple-mode value. -/
inductive OutEntry
  | full (e : Entry)
  | errorRec (e : Err) (typeName : Str)
  | simple (v : PyVal)

/-- The mutable state of the record-stream loop. -/
structure LoopState where
  simpleFormat : Bool
  data : List (Str × OutEntry)
  aux : List (Str × Str)
  currentDb : Nat
  expiry : Option Nat
  idle : Option Nat
  freq : Option Nat

/-- Full-mode entry construction: expiry is attached under Python
truthiness (`if expiry:`), so both unset and zero are dropped, while
idle and freq are attached whenever set (`if idle is not None:`). -/
def mkFullEntry (v : PyVal) (tn : Str) (expiry idle freq : Option Nat) : Entry :=
  { value := v
    typeName := tn
    expiry_ms := match expiry with
      | some e => if e = 0 then none else some e
      | none => none
    idle := idle
    freq := freq }

/-- What gets stored for a successfully decoded value, by output mode. -/
def storedValue (st : LoopState) (vt : Nat) (v : PyVal) : OutEntry :=
  if st.simpleFormat then .simple v
  else .full (mkFullEntry v (typeNameOf vt) st.expiry st.idle st.freq)

/-- The first millisecond timestamp rejected by datetime.fromtimestamp,
which the source calls while building a full-mode entry with a truthy
expiry: timestamps in year 10000 or later raise.  The boundary is the
UTC one; the exact cut depends on the local timezone, and nothing here
depends on behaviour within a day of the boundary. -/
def fromtimestampLimit : Nat := 253402300800000

/-- Whether datetime.fromtimestamp(ms / 1000) raises (ValueError, or
OverflowError for astronomically large values; the source catches both
the same way). -/
def fromtimestampRaises (ms : Nat) : Bool := decide (fromtimestampLimit ≤ ms)

/-- Whether full-mode entry construction raises: the expiry_date line
runs only under the truthiness test `if expiry:`, so an unset or zero
expiry never reaches datetime.fromtimestamp. -/
def entryRaises (st : LoopState) : Bool :=
  match st.expiry with
  | some e => if e = 0 then false else fromtimestampRaises e
  | none => false

/-- The value-type branch of the record loop: read the key (skipping the
entry if that fails), skip invalid keys while consuming their value, and
otherwise decode the value.  On success the entry is built and stored
and the pending metadata is reset — unless full-mode entry construction
itself raises in datetime.fromtimestamp (out-of-range expiry), which the
same except branch turns into an error record without a reset.  A value
decode error likewise yields a full-mode error record and leaves the
pending metadata in place. -/
def handleValueRecord (vt : Nat) (st : LoopState) : Rd LoopState := fun s =>
  match readString s with
  | (.error _, s1) => (.ok st, s1)
  | (.ok key, s1) =>
    if invalidKey key then
      match readValue vt s1 with
      | (_, s2) => (.ok st, s2)
    else
      match readValue vt s1 with
      | (.ok v, s2) =>
        if !st.simpleFormat && entryRaises st then
          (.ok { st with data := updAssoc st.data key (.errorRec .valueError (typeNameOf vt)) }, s2)
        else
          (.ok { st with
              data := updAssoc st.data key (storedValue st vt v)
              expiry := none
              idle := none
              freq := none }, s2)
      | (.error e, s2) =>
        (.ok (if st.simpleFormat then st
          else { st with data := updAssoc st.data key (.errorRec e (typeNameOf vt)) }), s2)

/-- Loop control: continue with the next record or break. -/
inductive Sig
  | cont
  | brk

/-- One iteration of the record loop: read an opcode and dispatch. -/
def loopBody (st : LoopState) : Rd (LoopState × Sig) := do
  let op ← readByte
  if op = 0xFF then do
    let _ ← Rd.catch (do
        let _ ← readBytes 8
        Rd.pure ())
      (fun _ => Rd.pure ())
    Rd.pure (st, .brk)
  else if op = 0xFE then do
    let n ← readLength
    Rd.pure ({ st with currentDb := n }, .cont)
  else if op = 0xFA then do
    let k ← readString
    let v ← readString
    Rd.pure ({ st with aux := updAssoc st.aux k v }, .cont)
  else if op = 0xFB then do
    let _ ← readLength
    let _ ← readLength
    Rd.pure (st, .cont)
  else if op = 0xFC then do
    let n ← readUnsignedLong
    Rd.pure ({ st with expiry := some n }, .cont)
  else if op = 0xFD then do
    let n ← readUnsignedInt
    Rd.pure ({ st with expiry := some (n * 1000) }, .cont)
  else if op = 0xF8 then do
    let n ← readLength
    Rd.pure ({ st with idle := some n }, .cont)
  else if op = 0xF9 then do
    let n ← readByte
    Rd.pure ({ st with freq := some n }, .cont)
  else do
    let st1 ← handleValueRecord op st
    Rd.pure (st1, .cont)

/-- The record loop.  Any exception escaping an iteration is caught by
the outer except and breaks with the state of the iteration entry (no
branch updates the state before its last read, so nothing is lost).
Each iteration consumes at least the opcode byte, so fuel equal to the
remaining input length plus one is never exhausted. -/
def runLoop : Nat → LoopState → List Nat → LoopState
  | 0, st, _ => st
  | fuel + 1, st, s =>
    match loopBody st s with
    | (.ok (st1, .cont), s1) => runLoop fuel st1 s1
    | (.ok (st1, .brk), _) => st1
    | (.error _, _) => st

/-- The decoded snapshot returned by parse(). -/
structure Snapshot where
  rdb_version : Str
  aux : List (Str × Str)
  db : Nat
  keys : List (Str × OutEntry)

def magicBytes : List Nat := [82, 69, 68, 73, 83]

def initState (simpleFormat : Bool) : LoopState :=
  { simpleFormat := simpleFormat
    data := []
    aux := []
    currentDb := 0
    expiry := none
    idle := none
    freq := none }

/-- parse(): magic check, ASCII version field, record loop, snapshot
assembly.  The header reads are spelled out: read_bytes(5) yields the
first five bytes or EOFError when fewer remain, read_bytes(4) likewise
consumes the next four, and the ASCII decode of the version raises on a
byte of 128 or more.  Header failures propagate (BadMagic as valueError,
a short header as eof, a non-ASCII version as unicodeError); nothing
after the header can escape the loop. -/
def parseBody (simpleFormat : Bool) (records : List Nat) (vb : Str) : Snapshot :=
  let fin := runLoop (records.length + 1) (initState simpleFormat) records
  { rdb_version := vb, aux := fin.aux, db := fin.currentDb, keys := fin.data }

def parse (simpleFormat : Bool) (input : List Nat) : Except Err Snapshot :=
  if input.length < 5 then .error .eof
  else if input.take 5 ≠ magicBytes then .error .valueError
  else if input.length < 9 then .error .eof
  else if ¬ ((input.drop 5).take 4).all (· < 128) then .error .unicodeError
  else .ok (parseBody simpleFormat (input.drop 9) ((input.drop 5).take 4))

/-! Concrete inputs used by the evaluation theorems. -/

/-- A well-formed ziplist (per the on-disk format) with one entry: the
32-bit string-length encoding 0x80, length payload 1 written big-endian
as 00 00 00 01, payload "A", then the 0xFF terminator. -/
def ziplistOneStrBE : List Nat :=
  [18, 0, 0, 0, 10, 0, 0, 0, 1, 0, 0, 0x80, 0, 0, 0, 1, 65, 0xFF]

/-- The same ziplist with the length payload written little-endian
instead, which is the byte order this decoder actually consumes. -/
def ziplistOneStrLE : List Nat :=
  [18, 0, 0, 0, 10, 0, 0, 0, 1, 0, 0, 0x80, 1, 0, 0, 0, 65, 0xFF]

/-- The intset payload of the spec seed case: element_size 2, count 3,
values -1, 2, 30000 little-endian. -/
def intsetSeed : List Nat :=
  [2, 0, 0, 0, 3, 0, 0, 0, 255, 255, 2, 0, 0x30, 0x75]

/-- A well-formed listpack (per the on-disk format) with two entries: a
130-byte string in the 12-bit string encoding, whose backlen 132 takes
the two bytes 01 84, then the inline integer 5, then the terminator. -/
def listpackBigEntry : List Nat :=
  [143, 0, 0, 0, 2, 0] ++ [0x80, 130] ++ List.replicate 130 97
    ++ [1, 0x84] ++ [0xC5, 2] ++ [0xFF]

/-- C1: the claimed ziplist round trip fails on the 32-bit string-length
encoding because parse_ziplist_entry reads its 4-byte length payload
little-endian (struct `<I`), not big-endian as the claim and the on-disk
format say.  On a well-formed ziplist holding the single string "A" with
a big-endian length payload the decoder misreads the length as 2 to the
24, fails the bounds check and returns the empty list; with the same
bytes arranged little-endian it returns the string, which pins the byte
order the code implements. -/
theorem ziplist_32bit_length_read_little_endian :
    parseZiplist ziplistOneStrBE = [] ∧ parseZiplist ziplistOneStrLE = [.s [65]] :=
  ⟨rfl, rfl⟩

/-- C2: the intset round trip fails.  For element_size 2 the source
computes its stride as [2,4,8][2] = 8 (indexing the table with the width
instead of a code), so on the seed payload (element_size 2, count 3,
values -1, 2, 30000) the very first bounds check 8 + 8 > 14 fires and
the decoder returns the empty list instead of ["-1","2","30000"]. -/
theorem intset_element_size_two_returns_empty :
    readSetIntsetCore intsetSeed = [] := rfl

/-- C4: read_length_with_encoding consumes the 4-byte payload after a
0x80 prefix with read_unsigned_int and the 8-byte payload after 0x81
with read_unsigned_long, both little-endian.  On payload 00 00 00 01 it
returns 16777216 where the claimed big-endian reading gives 1, and on
the corresponding 8-byte payload it returns 2 to the 56. -/
theorem length_codec_payload_read_little_endian :
    readLengthWithEncoding [0x80, 0, 0, 0, 1] = (.ok (.len 16777216), [])
      ∧ readLengthWithEncoding [0x81, 0, 0, 0, 0, 0, 0, 0, 1]
        = (.ok (.len 72057594037927936), []) :=
  ⟨rfl, rfl⟩

/-! Helper lemmas shared by the claim theorems. -/

lemma lookupAssoc_updAssoc {α : Type} (d : List (Str × α)) (k : Str) (v : α) :
    lookupAssoc (updAssoc d k v) k = some v := by
  induction d with
  | nil => simp [updAssoc, lookupAssoc]
  | cons p t ih =>
    obtain ⟨a, b⟩ := p
    by_cases h : a = k
    · simp [updAssoc, lookupAssoc, h]
    · simp [updAssoc, lookupAssoc, h, ih]

lemma zsetOfEntries_get (es : List ZLVal) (k : Nat) :
    (zsetOfEntries es).get? k =
      match es.get? (2 * k), es.get? (2 * k + 1) with
      | some a, some b => some (strOfVal a, scoreOf b)
      | _, _ => none := by
  induction k generalizing es with
  | zero =>
    match es with
    | [] => rfl
    | [a] => rfl
    | a :: b :: t => rfl
  | succ k ih =>
    match es with
    | [] => rfl
    | [a] =>
      have h1 : ([a] : List ZLVal).get? (2 * (k + 1)) = none := by
        rw [List.get?_eq_none]
        simp
        omega
      simp [zsetOfEntries, h1]
    | a :: b :: t =>
      have e1 : 2 * (k + 1) = (2 * k + 1) + 1 := by ring
      rw [e1]
      simp only [zsetOfEntries, List.get?_cons_succ]
      exact ih t

/-! The record metadata input used to exercise the record loop. -/

/-- A whole snapshot file: header, a millisecond expiry of 5, a list
record for key "a" whose value decoder raises (its length prefix is the
special-encoding byte 0xC0, a ValueError in read_length), then a string
record for key "b" with value "x", then EOF. -/
def metadataLeakInput : List Nat :=
  magicBytes ++ [48, 48, 49, 49]
    ++ [0xFC, 5, 0, 0, 0, 0, 0, 0, 0]
    ++ [0x01, 1, 97, 0xC0]
    ++ [0x00, 1, 98, 1, 120]
    ++ [0xFF]

/-- C3 counterexample: the pending metadata is not reset when a value
record ends in a decode error.  In metadataLeakInput the expiry 5 is set
before the record for key "a", whose value decoder raises; the claim
says the expiry can then never be attached to a later entry, yet the
decoded snapshot attaches expiry_ms = 5 to the later key "b". -/
theorem pending_metadata_leak_counterexample :
    parse false metadataLeakInput = .ok
      { rdb_version := [48, 48, 49, 49]
        aux := []
        db := 0
        keys := [([97], OutEntry.errorRec .valueError (pyStr "list")),
          ([98], OutEntry.full
            { value := .str [120]
              typeName := pyStr "string"
              expiry_ms := some 5
              idle := none
              freq := none })] } := rfl

/-- Entry construction itself can raise after a successful value decode:
with a pending expiry at or beyond the datetime range, the full-mode
record for key "c" becomes an error record and the pending metadata is
left untouched, exactly like a value decode error. -/
lemma entry_build_raise_keeps_metadata :
    handleValueRecord 0
      { simpleFormat := false, data := [], aux := [], currentDb := 0
      , expiry := some (2 ^ 60), idle := none, freq := none } [1, 99, 1, 120] =
    (.ok { simpleFormat := false, data := [([99], .errorRec .valueError (pyStr "string"))]
         , aux := [], currentDb := 0, expiry := some (2 ^ 60), idle := none
         , freq := none }, []) := rfl

/-- C3 as amended: after a value record whose key is valid, whose value
decodes successfully and whose entry construction does not raise (in
full mode, a truthy pending expiry must be inside the datetime range;
simple mode never builds the dated entry), the pending expiry, idle and
freq are all reset to unset.  On the decode-error, entry-build-error and
skip paths the source leaves them in place, which is what the
counterexample exhibits. -/
theorem pending_metadata_reset_on_successful_store
    (vt : Nat) (st : LoopState) (s s1 s2 : List Nat) (key : Str) (v : PyVal)
    (hk : readString s = (.ok key, s1))
    (hik : invalidKey key = false)
    (hv : readValue vt s1 = (.ok v, s2))
    (hts : st.simpleFormat = false → entryRaises st = false) :
    handleValueRecord vt st s =
      (.ok { st with data := updAssoc st.data key (storedValue st vt v), expiry := none, idle := none, freq := none }, s2) := by
  unfold handleValueRecord
  rw [hk]
  simp only [hik, Bool.false_eq_true, if_false]
  rw [hv]
  have hr : (!st.simpleFormat && entryRaises st) = false := by
    cases hsf : st.simpleFormat with
    | true => simp [hsf]
    | false => simp [hsf, hts hsf]
  simp only [hr, Bool.false_eq_true, if_false]

/-- The concrete loop state used by the C3 witness: all three metadata
fields pending. -/
def pendingState : LoopState :=
  { simpleFormat := false, data := [], aux := [], currentDb := 0, expiry := some 7, idle := some 1, freq := some 2 }

theorem pending_metadata_reset_on_successful_store_witness :
    handleValueRecord 0 pendingState [1, 98, 1, 120] =
      (.ok { pendingState with
          data := updAssoc pendingState.data [98] (storedValue pendingState 0 (.str [120])), expiry := none, idle := none, freq := none }, []) :=
  pending_metadata_reset_on_successful_store 0 pendingState [1, 98, 1, 120] [1, 120] []
    [98] (.str [120]) rfl rfl rfl (fun _ => rfl)

/-- C7: when the key of a value record reads correctly but the value
decoder raises, the loop body returns normally (parsing continues) and
the key maps to an error record carrying the error and the type name in
full mode, while in simple mode the output is left untouched, so the key
is absent unless an earlier record stored it. -/
theorem per_entry_error_propagation
    (vt : Nat) (st : LoopState) (s s1 s2 : List Nat) (key : Str) (e : Err)
    (hk : readString s = (.ok key, s1))
    (hik : invalidKey key = false)
    (hv : readValue vt s1 = (.error e, s2)) :
    ∃ st1, handleValueRecord vt st s = (.ok st1, s2)
      ∧ (st.simpleFormat = false →
          lookupAssoc st1.data key = some (.errorRec e (typeNameOf vt)))
      ∧ (st.simpleFormat = true → st1.data = st.data) := by
  unfold handleValueRecord
  rw [hk]
  simp only [hik, Bool.false_eq_true, if_false]
  rw [hv]
  refine ⟨_, rfl, fun hs => ?_, fun hs => ?_⟩
  · simp [hs, lookupAssoc_updAssoc]
  · simp [hs]

theorem per_entry_error_propagation_witness :
    ∃ st1, handleValueRecord 0 (initState false) [1, 107] = (.ok st1, [])
      ∧ ((initState false).simpleFormat = false →
          lookupAssoc st1.data [107] = some (.errorRec .eof (typeNameOf 0)))
      ∧ ((initState false).simpleFormat = true → st1.data = (initState false).data) :=
  per_entry_error_propagation 0 (initState false) [1, 107] [] [] [107] .eof rfl rfl rfl

/-- C9: in the shared member/score conversion of read_zset_ziplist and
read_zset_listpack, a score element decoded as a string yields the
constant score 0, whatever the string says, while a score element
decoded as an inline integer is carried through as its value. -/
theorem zset_string_score_zero :
    (∀ (es : List ZLVal) (k : Nat) (a : ZLVal) (s : Str),
        es.get? (2 * k) = some a → es.get? (2 * k + 1) = some (.s s) →
        (zsetOfEntries es).get? k = some (strOfVal a, PyFloat.fint 0))
    ∧ (∀ (es : List ZLVal) (k : Nat) (a : ZLVal) (n : Int),
        es.get? (2 * k) = some a → es.get? (2 * k + 1) = some (.i n) →
        (zsetOfEntries es).get? k = some (strOfVal a, PyFloat.fint n)) := by
  constructor
  · intro es k a s h1 h2
    rw [zsetOfEntries_get, h1, h2]
    rfl
  · intro es k a n h1 h2
    rw [zsetOfEntries_get, h1, h2]
    rfl

theorem zset_string_score_zero_witness :
    (zsetOfEntries [.s [97], .s [49, 46, 53]]).get? 0
        = some (strOfVal (.s [97]), PyFloat.fint 0)
    ∧ (zsetOfEntries [.s [97], .i 7]).get? 0 = some (strOfVal (.s [97]), PyFloat.fint 7) :=
  ⟨zset_string_score_zero.1 [.s [97], .s [49, 46, 53]] 0 (.s [97]) [49, 46, 53] rfl rfl,
   zset_string_score_zero.2 [.s [97], .i 7] 0 (.s [97]) 7 rfl rfl⟩

/-- C10: with a pending expiry of exactly 0 milliseconds the stored
full-mode entry carries no expiry_ms field, because the source attaches
it under Python truthiness, while a pending idle of 0 and a pending freq
of 0 are attached as the fields idle = 0 and freq = 0. -/
theorem zero_expiry_dropped_zero_idle_freq_kept
    (st : LoopState) (vt : Nat) (v : PyVal)
    (hs : st.simpleFormat = false) (he : st.expiry = some 0)
    (hi : st.idle = some 0) (hf : st.freq = some 0) :
    storedValue st vt v =
      .full { value := v, typeName := typeNameOf vt, expiry_ms := none, idle := some 0, freq := some 0 } := by
  unfold storedValue mkFullEntry
  simp [hs, he, hi, hf]

set_option maxHeartbeats 1000000

lemma zipEntryEnc_le (data : List Nat) (enc off : Nat)
    (h1 : 1 ≤ off) (h2 : off ≤ data.length) :
    (zipEntryEnc data enc off).2 ≤ data.length := by
  unfold zipEntryEnc
  split_ifs <;> dsimp only <;> omega

lemma zipEntryAt_le (data : List Nat) (off : Nat) (h1 : 1 ≤ off) :
    (zipEntryAt data off).2 ≤ data.length := by
  unfold zipEntryAt
  split_ifs with h
  · simp
  · exact zipEntryEnc_le data _ (off + 1) (by omega) (by omega)

lemma parseZiplistEntry_le (data : List Nat) :
    (parseZiplistEntry data).2 ≤ data.length := by
  unfold parseZiplistEntry
  split_ifs <;> first
    | simp
    | exact zipEntryAt_le data 5 (by omega)
    | exact zipEntryAt_le data 1 (by omega)

lemma lpEntryF_le (data : List Nat) (h : 2 ≤ data.length) :
    (lpEntryF data).2 ≤ data.length := by
  unfold lpEntryF
  split_ifs <;> dsimp only <;> omega

lemma parseListpackEntry_le (data : List Nat) :
    (parseListpackEntry data).2 ≤ data.length := by
  unfold parseListpackEntry
  split_ifs <;> first
    | (dsimp only <;> omega)
    | (apply lpEntryF_le data (by omega))

lemma intsetLoop_length (bs : List Nat) (enc : Nat) :
    ∀ (fuel pos : Nat) (r : List Str), intsetLoop bs enc fuel pos = some r →
      r.length ≤ fuel := by
  intro fuel
  induction fuel with
  | zero =>
    intro pos r h
    simp only [intsetLoop] at h
    cases h
    simp
  | succ n ih =>
    intro pos r h
    have step : ∀ (c : Str) (p : Nat),
        (intsetLoop bs enc n p).map (c :: ·) = some r → r.length ≤ n + 1 := by
      intro c p hmap
      cases hr : intsetLoop bs enc n p with
      | none => rw [hr] at hmap; exact absurd hmap (by simp)
      | some t =>
        rw [hr] at hmap
        have ht : r = c :: t := by
          have := hmap
          simp only [Option.map_some', Option.some.injEq] at this
          exact this.symm
        subst ht
        simpa using ih _ _ hr
    unfold intsetLoop at h
    split_ifs at h <;>
      first
        | (cases h; simp)
        | (exact step _ _ h)

lemma readSetIntsetCore_length (bs : List Nat) :
    (readSetIntsetCore bs).length ≤ min (leNat ((bs.drop 4).take 4)) 1000 := by
  unfold readSetIntsetCore
  split_ifs
  · simp
  · cases hr : intsetLoop bs (leNat (bs.take 4)) (min (leNat ((bs.drop 4).take 4)) 1000) 8 with
    | none => simp
    | some r =>
      dsimp only
      exact intsetLoop_length bs _ _ _ _ hr

/-- C6: buffer-bounds safety of the container decoders.  Every read in
the embedded decoders is a guarded take/drop slice, and the two entry
decoders never report more consumed bytes than the buffer holds, which
is the invariant that keeps the container loops inside the buffer even
when an on-disk length field claims more; the intset decoder caps its
element count by the on-disk count (itself capped at 1000), truncating
rather than over-reading, and returns a plain list rather than
propagating an error. -/
theorem container_reads_bounded :
    (∀ data : List Nat, (parseZiplistEntry data).2 ≤ data.length)
    ∧ (∀ data : List Nat, (parseListpackEntry data).2 ≤ data.length)
    ∧ (∀ bs : List Nat,
        (readSetIntsetCore bs).length ≤ min (leNat ((bs.drop 4).take 4)) 1000) :=
  ⟨parseZiplistEntry_le, parseListpackEntry_le, readSetIntsetCore_length⟩

theorem container_reads_bounded_witness :
    (parseZiplistEntry [0, 0xC0, 1, 0]).2 ≤ ([0, 0xC0, 1, 0] : List Nat).length
    ∧ (parseListpackEntry [0xC5, 1]).2 ≤ ([0xC5, 1] : List Nat).length
    ∧ (readSetIntsetCore [4, 0, 0, 0, 9, 0, 0, 0, 1, 0, 0, 0]).length
        ≤ min (leNat ((([4, 0, 0, 0, 9, 0, 0, 0, 1, 0, 0, 0] : List Nat).drop 4).take 4)) 1000 :=
  ⟨container_reads_bounded.1 [0, 0xC0, 1, 0],
   container_reads_bounded.2.1 [0xC5, 1],
   container_reads_bounded.2.2 [4, 0, 0, 0, 9, 0, 0, 0, 1, 0, 0, 0]⟩

/-- The concrete loop state used by the C10 witness: every metadata
field pending with value 0. -/
def zeroMetadataState : LoopState :=
  { simpleFormat := false, data := [], aux := [], currentDb := 0, expiry := some 0, idle := some 0, freq := some 0 }

theorem zero_expiry_dropped_zero_idle_freq_kept_witness :
    storedValue zeroMetadataState 0 (.str []) =
      .full { value := .str [], typeName := typeNameOf 0, expiry_ms := none, idle := some 0, freq := some 0 } :=
  zero_expiry_dropped_zero_idle_freq_kept zeroMetadataState 0 (.str []) rfl rfl rfl rfl

/-- C8: totality on truncated input.  For any file whose first nine
bytes are the REDIS magic and a 4-byte ASCII version, parse returns a
Snapshot no matter where the rest is cut off: every exception inside the
record loop is caught and turns into a break, and the loop consumes at
least one byte per iteration, so it terminates with whatever was
decoded.  A file that does not begin with the magic is rejected with an
error (BadMagic, or a truncation error when even the magic is cut). -/
theorem parse_total_on_snapshot_header :
    (∀ (simpleFormat : Bool) (v1 v2 v3 v4 : Nat) (rest : List Nat),
        v1 < 128 → v2 < 128 → v3 < 128 → v4 < 128 →
        ∃ snap, parse simpleFormat
          (82 :: 69 :: 68 :: 73 :: 83 :: v1 :: v2 :: v3 :: v4 :: rest) = .ok snap)
    ∧ (∀ (simpleFormat : Bool) (input : List Nat),
        input.take 5 ≠ magicBytes → ∃ e, parse simpleFormat input = .error e) := by
  constructor
  · intro sf v1 v2 v3 v4 rest h1 h2 h3 h4
    have hall :
        (((82 :: 69 :: 68 :: 73 :: 83 :: v1 :: v2 :: v3 :: v4 :: rest).drop 5).take 4).all
          (· < 128) = true := by
      show ([v1, v2, v3, v4] : List Nat).all (· < 128) = true
      simp [List.all_cons, h1, h2, h3, h4]
    refine ⟨parseBody sf rest [v1, v2, v3, v4], ?_⟩
    unfold parse
    rw [if_neg (by simp), if_neg (by intro hne; exact hne rfl), if_neg (by simp),
      if_neg (fun hc => hc hall)]
    rfl
  · intro sf input hm
    unfold parse
    by_cases h5 : input.length < 5
    · exact ⟨.eof, by rw [if_pos h5]⟩
    · exact ⟨.valueError, by rw [if_neg h5, if_pos hm]⟩

theorem parse_total_on_snapshot_header_witness :
    (∃ snap, parse false
        (82 :: 69 :: 68 :: 73 :: 83 :: 48 :: 48 :: 49 :: 49 :: [0xFC, 5]) = .ok snap)
    ∧ (∃ e, parse false [1, 2, 3] = .error e) :=
  ⟨parse_total_on_snapshot_header.1 false 48 48 49 49 [0xFC, 5]
      (by decide) (by decide) (by decide) (by decide),
   parse_total_on_snapshot_header.2 false [1, 2, 3] (by decide)⟩

set_option maxRecDepth 4000

/-- C5: the claimed listpack round trip fails on entries longer than 127
bytes because parse_listpack_entry always consumes a single backlen
byte.  On a well-formed listpack holding a 130-byte string (on-disk
backlen 01 84, two bytes) followed by the integer 5, the decoder leaves
the second backlen byte unconsumed, misparses it as a 12-bit string
header, and returns only the first value instead of both. -/
theorem listpack_single_byte_backlen_misparse :
    parseListpack listpackBigEntry = [.s (List.replicate 130 97)] := rfl

end RDB
